import Mathlib

/-!
Verification of the class-listing filter pipeline of the miao-error-book
backend: the store driver `ListClasses` query construction
(`store/db/mysql/class.go`, `store/db/postgres/class.go`, the sqlite driver),
the API layer (`server/router/api/v1/class_service.go`), and the
filter-expression compiler described by the specification (the
`plugin/filter` package itself is not part of the available sources and is
modelled from the specification where needed).
-/

set_option maxRecDepth 8192

/-- A value appended to the driver argument list (Go `any` in `args`). -/
inductive SqlArg
  | intArg (n : Int)
  | strArg (s : String)
deriving DecidableEq

/-- Structure `store.FindClass` (mirrored in
`server/router/api/v1/test/class_service_test.go`, lines 467-481).
Pointer fields become `Option`, `ClassVisibility` is a string type. -/
structure FindClass where
  id : Option Int := none
  uid : Option String := none
  idList : List Int := []
  uidList : List String := []
  creatorID : Option Int := none
  memberID : Option Int := none
  visibility : Option String := none
  inviteCode : Option String := none
  filters : List String := []
  limit : Option Int := none
  offset : Option Int := none
  orderBy : String := ""
deriving DecidableEq

/-- Go `strings.Join(elems, sep)`. -/
def stringsJoin : List String → String → String
  | [], _ => ""
  | [x], _ => x
  | x :: y :: xs, sep => x ++ sep ++ stringsJoin (y :: xs) sep

/-- Helper: the contribution of one `if find.X != nil` branch of the driver
WHERE construction — a single conjunct with its arguments when the field is
set, nothing otherwise. -/
def optPart {α : Type} (o : Option α) (g : α → String × List SqlArg) :
    List (String × List SqlArg) :=
  match o with
  | some v => [g v]
  | none => []

/-- The WHERE conjuncts built by the mysql driver `ListClasses`
(`store/db/mysql/class.go`, lines 48-82) together with the arguments each
conjunct appends; the sqlite driver (`src/unnamed/part_002`, lines 42-76)
builds the identical conjunct/argument sequence.  The Go code grows `where`
and `args` in lockstep, one branch after another, in exactly this order;
here each branch contributes a `(conjunct, appended args)` pair. -/
def classWhereParts (find : FindClass) : List (String × List SqlArg) :=
  [("1 = 1", [])]
  ++ optPart find.id (fun v => ("`id` = ?", [SqlArg.intArg v]))
  ++ optPart find.uid (fun v => ("`uid` = ?", [SqlArg.strArg v]))
  ++ (if find.uidList.isEmpty then []
      else [("`uid` IN (" ++ stringsJoin (find.uidList.map (fun _ => "?")) (",") ++ ")",
             find.uidList.map SqlArg.strArg)])
  ++ optPart find.creatorID (fun v => ("`creator_id` = ?", [SqlArg.intArg v]))
  ++ optPart find.visibility (fun v => ("`visibility` = ?", [SqlArg.strArg v]))
  ++ optPart find.inviteCode (fun v => ("`invite_code` = ?", [SqlArg.strArg v]))
  ++ optPart find.memberID
      (fun v => ("`id` IN (SELECT `class_id` FROM `class_member` WHERE `user_id` = ?)",
                 [SqlArg.intArg v]))
  ++ find.filters.map (fun f => (f, []))

/-- ORDER BY clause selection (`store/db/mysql/class.go`, lines 84-87). -/
def classOrderBy (find : FindClass) : String :=
  if find.orderBy = "" then ("`created_ts` DESC") else find.orderBy

/-- SELECT head of the mysql driver query (`store/db/mysql/class.go`, line 89). -/
def mysqlSelectHead : String :=
  "SELECT `id`, `uid`, `name`, `description`, `creator_id`, `visibility`, `invite_code`, `settings`, UNIX_TIMESTAMP(`created_ts`), UNIX_TIMESTAMP(`updated_ts`) FROM `class` WHERE "

/-- SELECT head of the sqlite driver query (`src/unnamed/part_002`, line 83). -/
def sqliteSelectHead : String :=
  "SELECT `id`, `uid`, `name`, `description`, `creator_id`, `visibility`, `invite_code`, `settings`, `created_ts`, `updated_ts` FROM `class` WHERE "

/-- Query/argument construction shared by the mysql and sqlite driver
`ListClasses` (`store/db/mysql/class.go` lines 47-99, `src/unnamed/part_002`
lines 41-92): join the WHERE conjuncts with AND, append ORDER BY, then the
optional `LIMIT ?` and `OFFSET ?` with their arguments. -/
def listClassesQueryWith (head : String) (find : FindClass) : String × List SqlArg :=
  let parts := classWhereParts find
  let baseQuery :=
    head ++ stringsJoin (parts.map Prod.fst) (" AND ") ++ " ORDER BY " ++ classOrderBy find
  let baseArgs := (parts.map Prod.snd).flatten
  let step1 : String × List SqlArg :=
    match find.limit with
    | some v => (baseQuery ++ " LIMIT ?", baseArgs ++ [SqlArg.intArg v])
    | none => (baseQuery, baseArgs)
  match find.offset with
  | some v => (step1.1 ++ " OFFSET ?", step1.2 ++ [SqlArg.intArg v])
  | none => step1

/-- The (query string, argument list) pair the mysql driver `ListClasses`
passes to `QueryContext` (`store/db/mysql/class.go`, lines 47-100). -/
def mysqlListClassesQuery (find : FindClass) : String × List SqlArg :=
  listClassesQueryWith mysqlSelectHead find

/-- The (query string, argument list) pair the sqlite driver `ListClasses`
passes to `QueryContext` (`src/unnamed/part_002`, lines 41-94). -/
def sqliteListClassesQuery (find : FindClass) : String × List SqlArg :=
  listClassesQueryWith sqliteSelectHead find

/-- Number of `?` placeholder characters in a piece of mysql/sqlite SQL. -/
def countPlaceholders (s : String) : Nat :=
  s.data.count (Char.ofNat 63)

theorem countPlaceholders_append (a b : String) :
    countPlaceholders (a ++ b) = countPlaceholders a + countPlaceholders b := by
  show ((a ++ b).data).count _ = _
  rw [String.data_append, List.count_append]; rfl

theorem countPlaceholders_stringsJoin (sep : String) (h : countPlaceholders sep = 0) :
    ∀ l : List String, countPlaceholders (stringsJoin l sep) = (l.map countPlaceholders).sum
  | [] => by simp [stringsJoin]; rfl
  | [x] => by simp [stringsJoin]
  | x :: y :: xs => by
    rw [stringsJoin, countPlaceholders_append, countPlaceholders_append, h,
      countPlaceholders_stringsJoin sep h (y :: xs)]
    simp

/-- A `FindClass` exactly as the service layer `ListClasses`
(`server/router/api/v1/class_service.go`, lines 169-219) builds it for a
request with `Filter` set to the user expression `invite_code == "x"`
(accepted by the filter validator) and the default page size 10: the raw
filter string is appended to `Filters`, `Limit` is limit+1 = 11 and
`Offset` is 0. -/
def injectionFind : FindClass :=
  { filters := ["invite_code == \"x\""], limit := some (11), offset := some (0) }

/-- A `FindClass` carrying a validated filter whose string literal contains a
`?` character, as the service layer would build it for the request filter
`name == "a?"`. -/
def placeholderFind : FindClass :=
  { filters := ["name == \"a?\""], limit := some (11), offset := some (0) }

theorem optPart_forall {α : Type} {P : String × List SqlArg → Prop}
    (o : Option α) (g : α → String × List SqlArg) (h : ∀ v, P (g v)) :
    ∀ p ∈ optPart o g, P p := by
  cases o with
  | none => intro p hp; simp [optPart] at hp
  | some v => intro p hp; simp [optPart] at hp; subst hp; exact h v

theorem sum_map_one {α : Type} (l : List α) : (l.map (fun _ => (1 : Nat))).sum = l.length := by
  induction l with
  | nil => simp
  | cons x xs ih => simp [ih]; omega

/-- Each WHERE conjunct contributes exactly as many `?` characters as the
arguments it appends, provided filter strings themselves contain no `?`. -/
theorem classWhereParts_parity (find : FindClass)
    (hfilters : ∀ f ∈ find.filters, countPlaceholders f = 0) :
    ∀ p ∈ classWhereParts find, countPlaceholders p.1 = p.2.length := by
  unfold classWhereParts
  repeat' refine List.forall_mem_append.mpr ⟨?_, ?_⟩
  · intro p hp; simp at hp; subst hp; decide
  · exact optPart_forall _ _ (fun v => (by decide : countPlaceholders ("`id` = ?") = 1))
  · exact optPart_forall _ _ (fun v => (by decide : countPlaceholders ("`uid` = ?") = 1))
  · split
    · intro p hp; simp at hp
    · intro p hp
      simp only [List.mem_singleton] at hp
      subst hp
      rw [countPlaceholders_append, countPlaceholders_append,
        countPlaceholders_stringsJoin (",") (by decide)]
      rw [List.map_map]
      have h1 : List.map (countPlaceholders ∘ fun _ => ("?" : String)) find.uidList
          = find.uidList.map (fun _ => (1 : Nat)) :=
        List.map_congr_left (fun a _ => (by decide : countPlaceholders ("?") = 1))
      rw [h1, sum_map_one]
      simp [countPlaceholders]
  · exact optPart_forall _ _ (fun v => (by decide : countPlaceholders ("`creator_id` = ?") = 1))
  · exact optPart_forall _ _ (fun v => (by decide : countPlaceholders ("`visibility` = ?") = 1))
  · exact optPart_forall _ _ (fun v => (by decide : countPlaceholders ("`invite_code` = ?") = 1))
  · exact optPart_forall _ _
      (fun v => (by decide :
        countPlaceholders ("`id` IN (SELECT `class_id` FROM `class_member` WHERE `user_id` = ?)") = 1))
  · intro p hp
    simp only [List.mem_map] at hp
    obtain ⟨f, hf, rfl⟩ := hp
    simpa using hfilters f hf

theorem classOrderBy_clean (find : FindClass) (horder : countPlaceholders find.orderBy = 0) :
    countPlaceholders (classOrderBy find) = 0 := by
  unfold classOrderBy
  split
  · decide
  · exact horder

/-- Placeholder/argument parity of the full query built by the driver
`ListClasses`, for any `FindClass` whose filter strings and ORDER BY clause
contain no `?` character. -/
theorem listClassesQueryWith_parity (head : String) (find : FindClass)
    (hhead : countPlaceholders head = 0)
    (hfilters : ∀ f ∈ find.filters, countPlaceholders f = 0)
    (horder : countPlaceholders find.orderBy = 0) :
    countPlaceholders (listClassesQueryWith head find).1
      = (listClassesQueryWith head find).2.length := by
  have hparts := classWhereParts_parity find hfilters
  have hmaps : ((classWhereParts find).map Prod.fst).map countPlaceholders
      = ((classWhereParts find).map Prod.snd).map List.length := by
    rw [List.map_map, List.map_map]
    exact List.map_congr_left (fun p hp => hparts p hp)
  have hlim : countPlaceholders (" LIMIT ?") = 1 := by decide
  have hoff : countPlaceholders (" OFFSET ?") = 1 := by decide
  have hordkw : countPlaceholders (" ORDER BY ") = 0 := by decide
  have hbase : countPlaceholders
      (head ++ stringsJoin ((classWhereParts find).map Prod.fst) (" AND ")
        ++ " ORDER BY " ++ classOrderBy find)
      = (((classWhereParts find).map Prod.snd).flatten).length := by
    rw [countPlaceholders_append, countPlaceholders_append, countPlaceholders_append, hhead,
      countPlaceholders_stringsJoin (" AND ") (by decide), List.length_flatten,
      classOrderBy_clean find horder, hmaps, hordkw]
    simp
  unfold listClassesQueryWith
  rcases find.limit with _ | v <;> rcases find.offset with _ | w <;>
    simp only [countPlaceholders_append, hbase, hlim, hoff, List.length_append,
      List.length_cons, List.length_nil]

/-- C1: the claim fails on the code.  For a `FindClass` whose `Filters` list
was populated from the request filter string `invite_code == "x"` (exactly as
`ListClasses` in `server/router/api/v1/class_service.go` lines 172-178 does
after successful validation), both the mysql and the sqlite driver
concatenate the user-controlled filter text verbatim into the WHERE clause:
the literal `"x"` appears inside the executed SQL text and the argument list
contains only the LIMIT/OFFSET values — no placeholder stands at the value
position. -/
theorem claim_C1 :
    mysqlListClassesQuery injectionFind =
      ("SELECT `id`, `uid`, `name`, `description`, `creator_id`, `visibility`, `invite_code`, `settings`, UNIX_TIMESTAMP(`created_ts`), UNIX_TIMESTAMP(`updated_ts`) FROM `class` WHERE 1 = 1 AND invite_code == \"x\" ORDER BY `created_ts` DESC LIMIT ? OFFSET ?",
       [SqlArg.intArg 11, SqlArg.intArg 0])
    ∧ sqliteListClassesQuery injectionFind =
      ("SELECT `id`, `uid`, `name`, `description`, `creator_id`, `visibility`, `invite_code`, `settings`, `created_ts`, `updated_ts` FROM `class` WHERE 1 = 1 AND invite_code == \"x\" ORDER BY `created_ts` DESC LIMIT ? OFFSET ?",
       [SqlArg.intArg 11, SqlArg.intArg 0]) := by
  constructor <;> rfl

/-- C2 counterexample: for the `FindClass` built from the validated request
filter `name == "a?"`, the mysql driver query contains three `?` characters
(one inside the concatenated filter text, plus LIMIT and OFFSET) but only two
arguments, so the placeholder/parameter parity claimed for every `FindClass`
fails. -/
theorem claim_C2_counterexample :
    ¬ (countPlaceholders (mysqlListClassesQuery placeholderFind).1
        = (mysqlListClassesQuery placeholderFind).2.length) := by
  decide

/-- Modelled from the spec: the generated protobuf enum `v1pb.ClassVisibility`
is not under the available sources; protobuf enums are integers in Go, with
`CLASS_VISIBILITY_UNSPECIFIED = 0` and the three named values following in
declaration order. -/
def classVisibilityUnspecifiedPB : Int := 0

/-- Protobuf enum value `CLASS_PUBLIC`. -/
def classVisibilityPublicPB : Int := 1

/-- Protobuf enum value `CLASS_PROTECTED`. -/
def classVisibilityProtectedPB : Int := 2

/-- Protobuf enum value `CLASS_PRIVATE`. -/
def classVisibilityPrivatePB : Int := 3

/-- Store constant `store.ClassVisibilityPublic` (test mirror
`class_service_test.go` lines 395-406, migration CHECK constraints). -/
def storeClassVisibilityPublic : String := "PUBLIC"

/-- Store constant `store.ClassVisibilityProtected`. -/
def storeClassVisibilityProtected : String := "PROTECTED"

/-- Store constant `store.ClassVisibilityPrivate`. -/
def storeClassVisibilityPrivate : String := "PRIVATE"

/-- The conversion `convertClassVisibilityToStore`
(`server/router/api/v1/class_service.go`, lines 444-460): a switch over the
protobuf enum mapping the three named values to the store constants; every
other value falls to the default case, which returns an error (the debug
printing on stderr is irrelevant to the result and omitted). -/
def convertClassVisibilityToStore (v : Int) : Except Unit String :=
  if v = classVisibilityPublicPB then Except.ok storeClassVisibilityPublic
  else if v = classVisibilityProtectedPB then Except.ok storeClassVisibilityProtected
  else if v = classVisibilityPrivatePB then Except.ok storeClassVisibilityPrivate
  else Except.error ()

/-- The conversion `convertClassVisibilityFromStore`
(`server/router/api/v1/class_service.go`, lines 462-474). -/
def convertClassVisibilityFromStore (v : String) : Int :=
  if v = storeClassVisibilityPublic then classVisibilityPublicPB
  else if v = storeClassVisibilityProtected then classVisibilityProtectedPB
  else if v = storeClassVisibilityPrivate then classVisibilityPrivatePB
  else classVisibilityUnspecifiedPB

/-- C8: `convertClassVisibilityToStore` succeeds exactly on the three named
protobuf values, errors on every other integer value of the enum, and
`convertClassVisibilityFromStore` undoes it on the three named values. -/
theorem claim_C8 (v : Int) :
    ((v = classVisibilityPublicPB ∨ v = classVisibilityProtectedPB
        ∨ v = classVisibilityPrivatePB) →
      ∃ s, convertClassVisibilityToStore v = Except.ok s
        ∧ convertClassVisibilityFromStore s = v)
    ∧ (v ≠ classVisibilityPublicPB → v ≠ classVisibilityProtectedPB →
        v ≠ classVisibilityPrivatePB → convertClassVisibilityToStore v = Except.error ()) := by
  constructor
  · rintro (rfl | rfl | rfl) <;> exact ⟨_, rfl, rfl⟩
  · intro h1 h2 h3
    simp [convertClassVisibilityToStore, h1, h2, h3]

/-- Witness for C8 at the concrete values `CLASS_PUBLIC` (1) and
`CLASS_VISIBILITY_UNSPECIFIED` (0). -/
theorem claim_C8_witness :
    (∃ s, convertClassVisibilityToStore 1 = Except.ok s
      ∧ convertClassVisibilityFromStore s = 1)
    ∧ convertClassVisibilityToStore 0 = Except.error () :=
  ⟨(claim_C8 1).1 (Or.inl rfl), (claim_C8 0).2 (by decide) (by decide) (by decide)⟩

/-- Character set of `generateInviteCode`
(`server/router/api/v1/class_service.go`, line 1964). -/
def inviteCharset : List Char :=
  ("ABCDEFGHIJKLMNOPQRSTUVWXYZabcdefghijklmnopqrstuvwxyz0123456789").data

/-- The function `generateInviteCode`
(`server/router/api/v1/class_service.go`, lines 1963-1973).  The `math/rand`
source is abstracted as a function `intn` supplying the successive results of
`r.Intn(len(charset))`; Go guarantees every such result is below the bound,
which the reduction modulo `inviteCharset.length` enforces.  The fallback
character is unreachable because the index is always in range. -/
def generateInviteCode (intn : Nat → Nat) (codeLen : Nat) : String :=
  String.mk ((List.range codeLen).map
    (fun i => inviteCharset.getD (intn i % inviteCharset.length) (Char.ofNat 65)))

/-- The invite code value that `CreateClass` stores
(`server/router/api/v1/class_service.go`, lines 73-102): start from the
optional invite code of the request (empty when absent); generate an 8-character
code when it is empty. -/
def createClassInviteCode (intn : Nat → Nat) (reqInviteCode : Option String) : String :=
  let inviteCode :=
    match reqInviteCode with
    | some s => s
    | none => ""
  if inviteCode = "" then generateInviteCode intn 8 else inviteCode

theorem generateInviteCode_length (intn : Nat → Nat) (n : Nat) :
    (generateInviteCode intn n).length = n := by
  simp [generateInviteCode, String.length]

theorem generateInviteCode_chars (intn : Nat → Nat) (n : Nat) :
    ∀ c ∈ (generateInviteCode intn n).data, c ∈ inviteCharset := by
  intro c hc
  simp only [generateInviteCode, List.mem_map] at hc
  obtain ⟨i, _, rfl⟩ := hc
  have hlt : intn i % inviteCharset.length < inviteCharset.length :=
    Nat.mod_lt _ (by decide)
  rw [List.getD_eq_getElem _ _ hlt]
  exact List.getElem_mem hlt

/-- C9: the invite code `CreateClass` stores is never empty; when the request
omits the code or supplies the empty string, it is a generated 8-character
code over the alphabet `[A-Za-z0-9]`. -/
theorem claim_C9 (intn : Nat → Nat) (reqInviteCode : Option String) :
    createClassInviteCode intn reqInviteCode ≠ ""
    ∧ ((reqInviteCode = none ∨ reqInviteCode = some ("")) →
        (createClassInviteCode intn reqInviteCode).length = 8
        ∧ ∀ c ∈ (createClassInviteCode intn reqInviteCode).data, c ∈ inviteCharset) := by
  have hgen : generateInviteCode intn 8 ≠ "" := by
    intro h
    have := congrArg String.length h
    rw [generateInviteCode_length] at this
    simp [String.length] at this
  constructor
  · unfold createClassInviteCode
    rcases reqInviteCode with _ | s
    · simpa using hgen
    · simp only []
      split
      · exact hgen
      · simpa using (by assumption : ¬ s = "")
  · rintro (rfl | rfl) <;>
      exact ⟨generateInviteCode_length intn 8, generateInviteCode_chars intn 8⟩

/-- Witness for C9: a concrete deterministic random source and an absent
request invite code. -/
theorem claim_C9_witness :
    createClassInviteCode (fun _ => 0) none ≠ ""
    ∧ (createClassInviteCode (fun _ => 0) none).length = 8
    ∧ ∀ c ∈ (createClassInviteCode (fun _ => 0) none).data, c ∈ inviteCharset := by
  have h := claim_C9 (fun _ => 0) none
  exact ⟨h.1, (h.2 (Or.inl rfl)).1, (h.2 (Or.inl rfl)).2⟩

/-- Modelled from the spec: the filter engine dialect enumeration
(`filter.DialectName` with `DialectMySQL`, `DialectPostgres`,
`DialectSQLite`; spec section 6). -/
inductive DialectName
  | mysql
  | postgres
  | sqlite
deriving DecidableEq

/-- Modelled from the spec: semantic types of catalog fields
(spec section 3, FieldDescriptor). -/
inductive SemType
  | str
  | num
  | boolean
  | enum (values : List String)
  | timestamp
deriving DecidableEq

/-- Modelled from the spec: one allowed query field — name, semantic type and
physical column expression (spec section 3, FieldDescriptor). -/
structure FieldDescriptor where
  name : String
  semType : SemType
  column : String
deriving DecidableEq

/-- Modelled from the spec: literals of the filter expression grammar
(spec section 4.1). -/
inductive FilterLit
  | litStr (s : String)
  | litNum (n : Int)
  | litBool (b : Bool)
deriving DecidableEq

/-- Modelled from the spec: comparison operators (spec section 4.1). -/
inductive CmpOp
  | opEq
  | opNe
  | opLt
  | opLe
  | opGt
  | opGe
deriving DecidableEq

/-- Modelled from the spec: the abstract syntax of filter expressions after
parsing (spec sections 4.1-4.2): field comparisons against literals, the
per-string-field containment function, negation, conjunction, disjunction,
and a bare boolean field reference. -/
inductive FilterExpr
  | ident (name : String)
  | cmp (name : String) (op : CmpOp) (v : FilterLit)
  | containsFn (name : String) (v : String)
  | notE (e : FilterExpr)
  | andE (a b : FilterExpr)
  | orE (a b : FilterExpr)
deriving DecidableEq

/-- Identifiers referenced by an expression. -/
def FilterExpr.refs : FilterExpr → List String
  | .ident n => [n]
  | .cmp n _ _ => [n]
  | .containsFn n _ => [n]
  | .notE e => e.refs
  | .andE a b => a.refs ++ b.refs
  | .orE a b => a.refs ++ b.refs

/-- Catalog lookup: first field descriptor with the given name. -/
def lookupField (cat : List FieldDescriptor) (n : String) : Option FieldDescriptor :=
  cat.find? (fun fd => fd.name == n)

/-- Modelled from the spec: the typed compile errors (spec section 7). -/
inductive CompileError
  | parseError
  | tooComplex
  | unknownField (name : String)
  | unsupportedFunction (name : String)
  | typeMismatch
  | unsupportedDialect
deriving DecidableEq

/-- Modelled from the spec: the bound (catalog-resolved) expression tree
(spec section 4.3, BoundNode). -/
inductive BoundExpr
  | field (fd : FieldDescriptor)
  | cmp (fd : FieldDescriptor) (op : CmpOp) (v : FilterLit)
  | containsFn (fd : FieldDescriptor) (v : String)
  | notB (e : BoundExpr)
  | andB (a b : BoundExpr)
  | orB (a b : BoundExpr)
deriving DecidableEq

/-- The field descriptors occurring in a bound tree. -/
def BoundExpr.fieldsOf : BoundExpr → List FieldDescriptor
  | .field fd => [fd]
  | .cmp fd _ _ => [fd]
  | .containsFn fd _ => [fd]
  | .notB e => e.fieldsOf
  | .andB a b => a.fieldsOf ++ b.fieldsOf
  | .orB a b => a.fieldsOf ++ b.fieldsOf

/-- Modelled from the spec: node-by-node resolution against the catalog,
with the per-type function whitelist (a containment call is only resolvable
against a string-typed field; spec section 4.3). -/
def bindResolve (cat : List FieldDescriptor) : FilterExpr → Except CompileError BoundExpr
  | .ident n =>
      match lookupField cat n with
      | some fd => Except.ok (BoundExpr.field fd)
      | none => Except.error (CompileError.unknownField n)
  | .cmp n op v =>
      match lookupField cat n with
      | some fd => Except.ok (BoundExpr.cmp fd op v)
      | none => Except.error (CompileError.unknownField n)
  | .containsFn n v =>
      match lookupField cat n with
      | some fd =>
          if fd.semType = SemType.str then Except.ok (BoundExpr.containsFn fd v)
          else Except.error (CompileError.unsupportedFunction ("contains"))
      | none => Except.error (CompileError.unknownField n)
  | .notE e => (bindResolve cat e).map BoundExpr.notB
  | .andE a b => do
      let a' ← bindResolve cat a
      let b' ← bindResolve cat b
      pure (BoundExpr.andB a' b')
  | .orE a b => do
      let a' ← bindResolve cat a
      let b' ← bindResolve cat b
      pure (BoundExpr.orB a' b')

/-- Modelled from the spec: the binder.  Binding resolves every identifier
through the catalog — an identifier absent from the catalog fails with
`UnknownFieldError` (spec section 4.3) — then resolves the individual nodes. -/
def bindExpr (cat : List FieldDescriptor) (e : FilterExpr) : Except CompileError BoundExpr :=
  match e.refs.find? (fun n => (lookupField cat n).isNone) with
  | some n => Except.error (CompileError.unknownField n)
  | none => bindResolve cat e

/-- Modelled from the spec: literal/field type compatibility
(spec section 4.4). -/
def litOK : SemType → FilterLit → Bool
  | SemType.str, FilterLit.litStr _ => true
  | SemType.num, FilterLit.litNum _ => true
  | SemType.boolean, FilterLit.litBool _ => true
  | SemType.enum vs, FilterLit.litStr s => vs.contains s
  | SemType.timestamp, FilterLit.litNum _ => true
  | _, _ => false

/-- Modelled from the spec: operator/type compatibility — equality and
inequality for all types, ordering only for numbers and timestamps
(spec section 4.4). -/
def opOK : SemType → CmpOp → Bool
  | _, CmpOp.opEq => true
  | _, CmpOp.opNe => true
  | SemType.num, _ => true
  | SemType.timestamp, _ => true
  | _, _ => false

/-- Modelled from the spec: the type checker — same tree shape out, failing
with `TypeMismatchError` on incompatible operator/operand combinations; a
bare field reference must be boolean (spec section 4.4). -/
def typecheckB : BoundExpr → Except CompileError BoundExpr
  | BoundExpr.field fd =>
      if fd.semType = SemType.boolean then Except.ok (BoundExpr.field fd)
      else Except.error CompileError.typeMismatch
  | BoundExpr.cmp fd op v =>
      if opOK fd.semType op && litOK fd.semType v then Except.ok (BoundExpr.cmp fd op v)
      else Except.error CompileError.typeMismatch
  | BoundExpr.containsFn fd v => Except.ok (BoundExpr.containsFn fd v)
  | BoundExpr.notB e => (typecheckB e).map BoundExpr.notB
  | BoundExpr.andB a b => do
      let a' ← typecheckB a
      let b' ← typecheckB b
      pure (BoundExpr.andB a' b')
  | BoundExpr.orB a b => do
      let a' ← typecheckB a
      let b' ← typecheckB b
      pure (BoundExpr.orB a' b')

/-- Decimal digit list of a natural number (most significant first; empty for 0). -/
def decDigits (n : Nat) : List Char :=
  if h : n = 0 then []
  else decDigits (n / 10) ++ [Char.ofNat (48 + n % 10)]
decreasing_by exact Nat.div_lt_self (Nat.pos_of_ne_zero h) (by decide)

/-- Decimal rendering of a natural number. -/
def natDec (n : Nat) : String :=
  if n = 0 then ("0") else String.mk (decDigits n)

theorem decDigits_count_dollar (n : Nat) : (decDigits n).count (Char.ofNat 36) = 0 := by
  induction n using Nat.strongRecOn with
  | ind n ih =>
    rw [decDigits]
    split
    · simp
    · rename_i h
      rw [List.count_append, ih (n / 10) (Nat.div_lt_self (Nat.pos_of_ne_zero h) (by decide))]
      have hr : n % 10 < 10 := Nat.mod_lt _ (by decide)
      have hne : Char.ofNat (48 + n % 10) ≠ Char.ofNat 36 := by
        set r := n % 10 with hrdef
        interval_cases r <;> decide
      simp [List.count_singleton, hne]

theorem natDec_count_dollar (n : Nat) : (natDec n).data.count (Char.ofNat 36) = 0 := by
  unfold natDec
  split
  · decide
  · exact decDigits_count_dollar n

/-- SQL parameter values produced by the renderer (typed bound values). -/
inductive SqlParam
  | pStr (s : String)
  | pInt (n : Int)
  | pBool (b : Bool)
deriving DecidableEq

/-- Modelled from the spec: dialect placeholder syntax — positional `?` for
mysql and sqlite, numbered `$n` (1-based) for postgres (spec section 4.5). -/
def placeholderSyntax : DialectName → Nat → String
  | DialectName.postgres, k => "$" ++ natDec (k + 1)
  | _, _ => "?"

/-- Modelled from the spec: dialect identifier quoting — backticks for mysql
and sqlite, plain identifiers for postgres (spec section 4.5). -/
def quoteColumn : DialectName → String → String
  | DialectName.postgres, c => c
  | _, c => "`" ++ c ++ "`"

/-- Modelled from the spec: dialect boolean encoding — native boolean for
postgres, 0/1 for mysql and sqlite (spec section 4.5). -/
def boolValue : DialectName → Bool → SqlParam
  | DialectName.postgres, b => SqlParam.pBool b
  | _, b => SqlParam.pInt (if b then 1 else 0)

/-- Parameter encoding of a literal for a dialect. -/
def litValue (d : DialectName) : FilterLit → SqlParam
  | FilterLit.litStr s => SqlParam.pStr s
  | FilterLit.litNum n => SqlParam.pInt n
  | FilterLit.litBool b => boolValue d b

/-- SQL text of a comparison operator. -/
def cmpOpSql : CmpOp → String
  | CmpOp.opEq => " = "
  | CmpOp.opNe => " <> "
  | CmpOp.opLt => " < "
  | CmpOp.opLe => " <= "
  | CmpOp.opGt => " > "
  | CmpOp.opGe => " >= "

/-- Modelled from the spec: the dialect renderer — a pure tree walk producing
a fully parameterized fragment and the ordered parameter list; every literal
becomes a placeholder (numbered from `k` for postgres) and a parameter, and no
literal text is interpolated into the fragment (spec section 4.5). -/
def renderB (d : DialectName) : BoundExpr → Nat → String × List SqlParam
  | BoundExpr.field fd, k =>
      (quoteColumn d fd.column ++ " = " ++ placeholderSyntax d k, [boolValue d true])
  | BoundExpr.cmp fd op v, k =>
      (quoteColumn d fd.column ++ cmpOpSql op ++ placeholderSyntax d k, [litValue d v])
  | BoundExpr.containsFn fd v, k =>
      (quoteColumn d fd.column ++ " LIKE " ++ placeholderSyntax d k,
       [SqlParam.pStr ("%" ++ v ++ "%")])
  | BoundExpr.notB e, k =>
      let r := renderB d e k
      ("NOT (" ++ r.1 ++ ")", r.2)
  | BoundExpr.andB a b, k =>
      let ra := renderB d a k
      let rb := renderB d b (k + ra.2.length)
      ("(" ++ ra.1 ++ " AND " ++ rb.1 ++ ")", ra.2 ++ rb.2)
  | BoundExpr.orB a b, k =>
      let ra := renderB d a k
      let rb := renderB d b (k + ra.2.length)
      ("(" ++ ra.1 ++ " OR " ++ rb.1 ++ ")", ra.2 ++ rb.2)

/-- Modelled from the spec: the output of compilation (spec section 3). -/
structure CompiledStatement where
  fragment : String
  parameters : List SqlParam
  referencedFields : List String
deriving DecidableEq

/-- Modelled from the spec: the engine facade `CompileToStatement` for an
already-parsed expression — bind against the catalog, type check, render for
the requested dialect, short-circuiting on the first failure
(spec section 4.6). -/
def compileExpr (cat : List FieldDescriptor) (e : FilterExpr) (d : DialectName) :
    Except CompileError CompiledStatement :=
  match bindExpr cat e with
  | Except.error err => Except.error err
  | Except.ok b =>
    match typecheckB b with
    | Except.error err => Except.error err
    | Except.ok t =>
      let r := renderB d t 0
      Except.ok { fragment := r.1, parameters := r.2, referencedFields := e.refs }

/-- The placeholder-marking character of a dialect: `?` for mysql/sqlite,
`$` for postgres (each numbered placeholder contains exactly one `$`). -/
def phChar : DialectName → Char
  | DialectName.postgres => Char.ofNat 36
  | _ => Char.ofNat 63

/-- Number of placeholder characters of dialect `d` in a fragment. -/
def countPh (d : DialectName) (s : String) : Nat :=
  s.data.count (phChar d)

theorem countPh_append (d : DialectName) (a b : String) :
    countPh d (a ++ b) = countPh d a + countPh d b := by
  show ((a ++ b).data).count _ = _
  rw [String.data_append, List.count_append]; rfl

theorem countPh_placeholder (d : DialectName) (k : Nat) :
    countPh d (placeholderSyntax d k) = 1 := by
  cases d
  · exact (by decide : countPh DialectName.mysql ("?") = 1)
  · show countPh DialectName.postgres ("$" ++ natDec (k + 1)) = 1
    rw [countPh_append]
    have h2 : countPh DialectName.postgres (natDec (k + 1)) = 0 :=
      natDec_count_dollar (k + 1)
    rw [h2]
    decide
  · exact (by decide : countPh DialectName.sqlite ("?") = 1)

theorem countPh_quoteColumn (d : DialectName) (c : String) :
    countPh d (quoteColumn d c) = countPh d c := by
  cases d
  · show countPh DialectName.mysql ("`" ++ c ++ "`") = _
    rw [countPh_append, countPh_append,
      (by decide : countPh DialectName.mysql ("`") = 0)]
    omega
  · rfl
  · show countPh DialectName.sqlite ("`" ++ c ++ "`") = _
    rw [countPh_append, countPh_append,
      (by decide : countPh DialectName.sqlite ("`") = 0)]
    omega

theorem countPh_cmpOpSql (d : DialectName) (op : CmpOp) : countPh d (cmpOpSql op) = 0 := by
  cases d <;> cases op <;> decide

/-- Every rendered fragment contains exactly one placeholder character per
parameter, for any starting placeholder index, provided the column expressions of the bound tree
 contain none. -/
theorem renderB_parity (d : DialectName) :
    ∀ b : BoundExpr, (∀ fd ∈ b.fieldsOf, countPh d fd.column = 0) →
      ∀ k, countPh d (renderB d b k).1 = (renderB d b k).2.length := by
  intro b
  induction b with
  | field fd =>
    intro hcols k
    have hfd : countPh d fd.column = 0 := hcols fd (by simp [BoundExpr.fieldsOf])
    simp only [renderB, countPh_append, countPh_quoteColumn, countPh_placeholder, hfd,
      List.length_cons, List.length_nil]
    have : countPh d (" = ") = 0 := by cases d <;> decide
    omega
  | cmp fd op v =>
    intro hcols k
    have hfd : countPh d fd.column = 0 := hcols fd (by simp [BoundExpr.fieldsOf])
    simp only [renderB, countPh_append, countPh_quoteColumn, countPh_placeholder,
      countPh_cmpOpSql, hfd, List.length_cons, List.length_nil]
  | containsFn fd v =>
    intro hcols k
    have hfd : countPh d fd.column = 0 := hcols fd (by simp [BoundExpr.fieldsOf])
    simp only [renderB, countPh_append, countPh_quoteColumn, countPh_placeholder, hfd,
      List.length_cons, List.length_nil]
    have : countPh d (" LIKE ") = 0 := by cases d <;> decide
    omega
  | notB e ih =>
    intro hcols k
    have he := ih (fun fd hfd => hcols fd (by simpa [BoundExpr.fieldsOf] using hfd))
    have h1 : countPh d ("NOT (") = 0 := by cases d <;> decide
    have h2 : countPh d (")") = 0 := by cases d <;> decide
    simp only [renderB, countPh_append, h1, h2, he k]
    omega
  | andB a b iha ihb =>
    intro hcols k
    have hsplit := List.forall_mem_append.mp (by simpa [BoundExpr.fieldsOf] using hcols)
    have ha := iha hsplit.1
    have hb := ihb hsplit.2
    have h1 : countPh d ("(") = 0 := by cases d <;> decide
    have h2 : countPh d (" AND ") = 0 := by cases d <;> decide
    have h3 : countPh d (")") = 0 := by cases d <;> decide
    simp only [renderB, countPh_append, h1, h2, h3, ha, hb, List.length_append]
    omega
  | orB a b iha ihb =>
    intro hcols k
    have hsplit := List.forall_mem_append.mp (by simpa [BoundExpr.fieldsOf] using hcols)
    have ha := iha hsplit.1
    have hb := ihb hsplit.2
    have h1 : countPh d ("(") = 0 := by cases d <;> decide
    have h2 : countPh d (" OR ") = 0 := by cases d <;> decide
    have h3 : countPh d (")") = 0 := by cases d <;> decide
    simp only [renderB, countPh_append, h1, h2, h3, ha, hb, List.length_append]
    omega

/-- Fields of a tree produced by node resolution all come from the catalog. -/
theorem bindResolve_fields (cat : List FieldDescriptor) :
    ∀ e b, bindResolve cat e = Except.ok b → ∀ fd ∈ b.fieldsOf, fd ∈ cat := by
  intro e
  induction e with
  | ident n =>
    intro b hb fd hfd
    unfold bindResolve at hb
    cases hl : lookupField cat n with
    | none => rw [hl] at hb; cases hb
    | some fd0 =>
      rw [hl] at hb
      cases hb
      simp [BoundExpr.fieldsOf] at hfd
      subst hfd
      exact List.mem_of_find?_eq_some hl
  | cmp n op v =>
    intro b hb fd hfd
    unfold bindResolve at hb
    cases hl : lookupField cat n with
    | none => rw [hl] at hb; cases hb
    | some fd0 =>
      rw [hl] at hb
      cases hb
      simp [BoundExpr.fieldsOf] at hfd
      subst hfd
      exact List.mem_of_find?_eq_some hl
  | containsFn n v =>
    intro b hb fd hfd
    unfold bindResolve at hb
    cases hl : lookupField cat n with
    | none => rw [hl] at hb; cases hb
    | some fd0 =>
      rw [hl] at hb
      dsimp only at hb
      by_cases hstr : fd0.semType = SemType.str
      · rw [if_pos hstr] at hb
        cases hb
        simp [BoundExpr.fieldsOf] at hfd
        subst hfd
        exact List.mem_of_find?_eq_some hl
      · rw [if_neg hstr] at hb
        cases hb
  | notE e ih =>
    intro b hb fd hfd
    unfold bindResolve at hb
    cases he : bindResolve cat e with
    | error err => rw [he] at hb; cases hb
    | ok b0 =>
      rw [he] at hb
      cases hb
      exact ih b0 he fd (by simpa [BoundExpr.fieldsOf] using hfd)
  | andE a c iha ihc =>
    intro b hb fd hfd
    unfold bindResolve at hb
    cases ha : bindResolve cat a with
    | error err => rw [ha] at hb; cases hb
    | ok ba =>
      rw [ha] at hb
      cases hc : bindResolve cat c with
      | error err => rw [hc] at hb; cases hb
      | ok bc =>
        rw [hc] at hb
        cases hb
        rcases List.mem_append.mp (by simpa [BoundExpr.fieldsOf] using hfd) with h | h
        · exact iha ba ha fd h
        · exact ihc bc hc fd h
  | orE a c iha ihc =>
    intro b hb fd hfd
    unfold bindResolve at hb
    cases ha : bindResolve cat a with
    | error err => rw [ha] at hb; cases hb
    | ok ba =>
      rw [ha] at hb
      cases hc : bindResolve cat c with
      | error err => rw [hc] at hb; cases hb
      | ok bc =>
        rw [hc] at hb
        cases hb
        rcases List.mem_append.mp (by simpa [BoundExpr.fieldsOf] using hfd) with h | h
        · exact iha ba ha fd h
        · exact ihc bc hc fd h

theorem bindExpr_fields (cat : List FieldDescriptor) (e : FilterExpr) (b : BoundExpr)
    (hb : bindExpr cat e = Except.ok b) : ∀ fd ∈ b.fieldsOf, fd ∈ cat := by
  unfold bindExpr at hb
  split at hb
  · cases hb
  · exact bindResolve_fields cat e b hb

/-- The type checker returns the tree unchanged when it succeeds. -/
theorem typecheckB_eq : ∀ b t, typecheckB b = Except.ok t → t = b := by
  intro b
  induction b with
  | field fd =>
    intro t ht
    unfold typecheckB at ht
    split at ht
    · cases ht; rfl
    · cases ht
  | cmp fd op v =>
    intro t ht
    unfold typecheckB at ht
    split at ht
    · cases ht; rfl
    · cases ht
  | containsFn fd v =>
    intro t ht
    unfold typecheckB at ht
    cases ht
    rfl
  | notB e ih =>
    intro t ht
    unfold typecheckB at ht
    cases he : typecheckB e with
    | error err => rw [he] at ht; cases ht
    | ok t0 =>
      rw [he] at ht
      cases ht
      rw [ih t0 he]
  | andB a c iha ihc =>
    intro t ht
    unfold typecheckB at ht
    cases ha : typecheckB a with
    | error err => rw [ha] at ht; cases ht
    | ok ta =>
      rw [ha] at ht
      cases hc : typecheckB c with
      | error err => rw [hc] at ht; cases ht
      | ok tc =>
        rw [hc] at ht
        cases ht
        rw [iha ta ha, ihc tc hc]
  | orB a c iha ihc =>
    intro t ht
    unfold typecheckB at ht
    cases ha : typecheckB a with
    | error err => rw [ha] at ht; cases ht
    | ok ta =>
      rw [ha] at ht
      cases hc : typecheckB c with
      | error err => rw [hc] at ht; cases ht
      | ok tc =>
        rw [hc] at ht
        cases ht
        rw [iha ta ha, ihc tc hc]

/-- Engine-level placeholder/parameter parity: every successful compile
produces a fragment with exactly one placeholder per parameter (catalog
column expressions contain no placeholder character). -/
theorem compileExpr_parity (cat : List FieldDescriptor) (e : FilterExpr) (d : DialectName)
    (st : CompiledStatement) (hok : compileExpr cat e d = Except.ok st)
    (hcols : ∀ fd ∈ cat, countPh d fd.column = 0) :
    countPh d st.fragment = st.parameters.length := by
  unfold compileExpr at hok
  cases hb : bindExpr cat e with
  | error err => rw [hb] at hok; cases hok
  | ok b =>
    rw [hb] at hok
    dsimp only at hok
    cases ht : typecheckB b with
    | error err => rw [ht] at hok; cases hok
    | ok t =>
      rw [ht] at hok
      dsimp only at hok
      cases hok
      have hfields : ∀ fd ∈ t.fieldsOf, countPh d fd.column = 0 := by
        intro fd hfd
        refine hcols fd (bindExpr_fields cat e b hb fd ?_)
        rwa [typecheckB_eq b t ht] at hfd
      exact renderB_parity d t hfields 0

/-- C2 (amended): placeholder/parameter parity. For every successful compile
of the filter engine the fragment contains exactly one placeholder per
parameter (engine half, modelled from the spec, given placeholder-free
catalog columns); and the query built by the mysql/sqlite driver
`ListClasses` contains exactly as many `?` placeholders as arguments for
every `FindClass` whose `Filters` entries and `OrderBy` contain no `?`
character — the restriction the counterexample forces, since filter strings
are concatenated verbatim. -/
theorem claim_C2 (cat : List FieldDescriptor) (e : FilterExpr) (d : DialectName)
    (st : CompiledStatement) (find : FindClass)
    (hok : compileExpr cat e d = Except.ok st)
    (hcols : ∀ fd ∈ cat, countPh d fd.column = 0)
    (hfilters : ∀ f ∈ find.filters, countPlaceholders f = 0)
    (horder : countPlaceholders find.orderBy = 0) :
    countPh d st.fragment = st.parameters.length
    ∧ countPlaceholders (mysqlListClassesQuery find).1 = (mysqlListClassesQuery find).2.length
    ∧ countPlaceholders (sqliteListClassesQuery find).1
        = (sqliteListClassesQuery find).2.length :=
  ⟨compileExpr_parity cat e d st hok hcols,
   listClassesQueryWith_parity mysqlSelectHead find (by decide) hfilters horder,
   listClassesQueryWith_parity sqliteSelectHead find (by decide) hfilters horder⟩

/-- Catalog with a single string field, for concrete witnesses. -/
def witnessCatalog : List FieldDescriptor :=
  [{ name := "name", semType := SemType.str, column := "name" }]

/-- A concrete expression `name == "math"`. -/
def witnessExpr : FilterExpr :=
  FilterExpr.cmp ("name") CmpOp.opEq (FilterLit.litStr ("math"))

/-- Witness for C2 at a concrete successful compile and a concrete filterless
`FindClass`. -/
theorem claim_C2_witness :
    countPh DialectName.mysql ("`name` = ?") = 1
    ∧ countPlaceholders (mysqlListClassesQuery {}).1 = (mysqlListClassesQuery {}).2.length
    ∧ countPlaceholders (sqliteListClassesQuery {}).1
        = (sqliteListClassesQuery {}).2.length :=
  claim_C2 witnessCatalog witnessExpr DialectName.mysql
    { fragment := "`name` = ?", parameters := [SqlParam.pStr ("math")],
      referencedFields := ["name"] }
    {} rfl (by decide) (by simp) (by decide)

/-- C6: compilation and driver query construction are deterministic and
idempotent — equal `(catalog, expression, dialect)` inputs give identical
`CompiledStatement`s (fragment and parameter values included), and equal
`FindClass` inputs give identical (query, argument) pairs.  Both embeddings
are pure functions of their inputs: no hidden state enters the result. -/
theorem claim_C6 (cat : List FieldDescriptor) (e1 e2 : FilterExpr) (d1 d2 : DialectName)
    (f1 f2 : FindClass) (he : e1 = e2) (hd : d1 = d2) (hf : f1 = f2) :
    compileExpr cat e1 d1 = compileExpr cat e2 d2
    ∧ mysqlListClassesQuery f1 = mysqlListClassesQuery f2
    ∧ sqliteListClassesQuery f1 = sqliteListClassesQuery f2 := by
  subst he; subst hd; subst hf
  exact ⟨rfl, rfl, rfl⟩

/-- Witness for C6 at concrete equal inputs. -/
theorem claim_C6_witness :
    compileExpr witnessCatalog witnessExpr DialectName.mysql
      = compileExpr witnessCatalog witnessExpr DialectName.mysql
    ∧ mysqlListClassesQuery injectionFind = mysqlListClassesQuery injectionFind
    ∧ sqliteListClassesQuery injectionFind = sqliteListClassesQuery injectionFind :=
  claim_C6 witnessCatalog witnessExpr witnessExpr DialectName.mysql DialectName.mysql
    injectionFind injectionFind rfl rfl rfl

/-- C7: closed catalog — compiling any expression that references an
identifier absent from the catalog fails with `UnknownFieldError`, for every
catalog (entity kind) and regardless of the requested dialect; the offending
identifier comes from the expression and is indeed outside the catalog. -/
theorem claim_C7 (cat : List FieldDescriptor) (e : FilterExpr) (d : DialectName)
    (h : ∃ n ∈ e.refs, lookupField cat n = none) :
    ∃ m, compileExpr cat e d = Except.error (CompileError.unknownField m)
      ∧ m ∈ e.refs ∧ lookupField cat m = none := by
  obtain ⟨n, hn, hnone⟩ := h
  cases hf : e.refs.find? (fun x => (lookupField cat x).isNone) with
  | none =>
    exfalso
    have := List.find?_eq_none.mp hf n hn
    simp [hnone] at this
  | some m =>
    refine ⟨m, ?_, List.mem_of_find?_eq_some hf, ?_⟩
    · simp only [compileExpr, bindExpr, hf]
    · have := List.find?_some hf
      simpa using this

/-- Witness for C7: the expression `bogus == "x"` against the single-field
catalog, mysql dialect. -/
theorem claim_C7_witness :
    ∃ m, compileExpr witnessCatalog
        (FilterExpr.cmp ("bogus") CmpOp.opEq (FilterLit.litStr ("x"))) DialectName.mysql
        = Except.error (CompileError.unknownField m)
      ∧ m ∈ (FilterExpr.cmp ("bogus") CmpOp.opEq (FilterLit.litStr ("x"))).refs
      ∧ lookupField witnessCatalog m = none :=
  claim_C7 witnessCatalog
    (FilterExpr.cmp ("bogus") CmpOp.opEq (FilterLit.litStr ("x"))) DialectName.mysql
    ⟨"bogus", by decide, by decide⟩

/-- The typed errors of `validateClassFilter`
(`server/router/api/v1/class_service.go`, lines 704-731): the empty-filter
guard, the unsupported-driver default of the dialect switch, and a wrapped
compile error. -/
inductive ValidateError
  | emptyFilter
  | unsupportedDriver (driver : String)
  | invalidFilter (err : CompileError)
deriving DecidableEq

/-- The driver-name to dialect switch of `validateClassFilter`
(`server/router/api/v1/class_service.go`, lines 715-725); driver names other
than the three cases fall to the default, which has no dialect. -/
def driverDialect (driver : String) : Option DialectName :=
  if driver = "mysql" then some DialectName.mysql
  else if driver = "postgres" then some DialectName.postgres
  else if driver = "sqlite" then some DialectName.sqlite
  else none

/-- The function `validateClassFilter`
(`server/router/api/v1/class_service.go`, lines 704-731), parameterized over
the engine function `CompileToStatement` (the `plugin/filter` package is outside the
available sources), with the call order of the source preserved: empty-filter
guard first, then the dialect switch, and only then the compile call.
`filter.DefaultEngine()` merely constructs the engine and performs no work on
the expression; it is modelled as succeeding.  The second component records
whether `CompileToStatement` was invoked on the expression. -/
def validateClassFilterT
    (compileFn : String → DialectName → Except CompileError CompiledStatement)
    (driver : String) (filterStr : String) : (Except ValidateError Unit) × Bool :=
  if filterStr = "" then (Except.error ValidateError.emptyFilter, false)
  else
    match driverDialect driver with
    | none => (Except.error (ValidateError.unsupportedDriver driver), false)
    | some d =>
      match compileFn filterStr d with
      | Except.error err => (Except.error (ValidateError.invalidFilter err), true)
      | Except.ok _ => (Except.ok (), true)

/-- The error result of `validateClassFilter`. -/
def validateClassFilter
    (compileFn : String → DialectName → Except CompileError CompiledStatement)
    (driver : String) (filterStr : String) : Except ValidateError Unit :=
  (validateClassFilterT compileFn driver filterStr).1

/-- C3: validating the empty filter expression always fails — for every
compile function and every configured driver, `validateClassFilter` on `""`
returns an error (the empty-filter rejection), never a success that would
act as a trivially-true filter; the compiler is not even invoked. -/
theorem claim_C3
    (compileFn : String → DialectName → Except CompileError CompiledStatement)
    (driver : String) :
    validateClassFilter compileFn driver ("")
        = Except.error ValidateError.emptyFilter
    ∧ (validateClassFilterT compileFn driver ("")).2 = false := by
  constructor <;> rfl

/-- A compile function for concrete instantiations whose behaviour is
irrelevant: the control flow under scrutiny never reaches it. -/
def neverCompile : String → DialectName → Except CompileError CompiledStatement :=
  fun _ _ => Except.error CompileError.parseError

/-- C4 counterexample: for the unsupported driver name `oracle` and the empty
filter expression, `validateClassFilter` returns the empty-filter error, not
the unsupported-driver error the claim asserts for every request with an
unsupported driver. -/
theorem claim_C4_counterexample :
    validateClassFilter neverCompile ("oracle") ("")
        = Except.error ValidateError.emptyFilter
    ∧ validateClassFilter neverCompile ("oracle") ("")
        ≠ Except.error (ValidateError.unsupportedDriver ("oracle")) := by
  constructor
  · rfl
  · intro h
    cases h

/-- C4 (amended): for every validation request whose configured driver is not
mysql, postgres or sqlite, the engine function `CompileToStatement` is never invoked
on the expression and an error is returned; when the expression is non-empty
that error is precisely the unsupported-driver error (with the empty
expression the empty-filter guard fires first). -/
theorem claim_C4
    (compileFn : String → DialectName → Except CompileError CompiledStatement)
    (driver : String) (filterStr : String)
    (h1 : driver ≠ "mysql") (h2 : driver ≠ "postgres") (h3 : driver ≠ "sqlite") :
    (validateClassFilterT compileFn driver filterStr).2 = false
    ∧ (∃ err, validateClassFilter compileFn driver filterStr = Except.error err)
    ∧ (filterStr ≠ "" →
        validateClassFilter compileFn driver filterStr
          = Except.error (ValidateError.unsupportedDriver driver)) := by
  have hdd : driverDialect driver = none := by
    unfold driverDialect
    rw [if_neg h1, if_neg h2, if_neg h3]
  by_cases hf : filterStr = ""
  · subst hf
    exact ⟨rfl, ⟨ValidateError.emptyFilter, rfl⟩, fun hne => absurd rfl hne⟩
  · unfold validateClassFilter validateClassFilterT
    rw [if_neg hf, hdd]
    exact ⟨rfl, ⟨ValidateError.unsupportedDriver driver, rfl⟩, fun _ => rfl⟩

/-- Witness for C4 at the concrete driver `oracle` and non-empty filter. -/
theorem claim_C4_witness :
    (validateClassFilterT neverCompile ("oracle") ("name == \"x\"")).2 = false
    ∧ (∃ err, validateClassFilter neverCompile ("oracle") ("name == \"x\"")
        = Except.error err)
    ∧ (("name == \"x\"" : String) ≠ "" →
        validateClassFilter neverCompile ("oracle") ("name == \"x\"")
          = Except.error (ValidateError.unsupportedDriver ("oracle"))) :=
  claim_C4 neverCompile ("oracle") ("name == \"x\"")
    (by decide) (by decide) (by decide)

/-- Minimal `store.Class` record (test mirror `class_service_test.go`,
lines 422-434; protobuf settings omitted — irrelevant to the listed claims). -/
structure ClassRec where
  id : Int := 0
  uid : String := ""
  name : String := ""
  description : String := ""
  creatorID : Int := 0
  createdTs : Int := 0
  updatedTs : Int := 0
  visibility : String := ""
  inviteCode : String := ""
deriving DecidableEq

/-- gRPC status codes returned by `ListClasses`. -/
inductive GrpcCode
  | invalidArgument
  | internal
deriving DecidableEq

/-- Result of a `ListClasses` call: a typed error, or the class page plus the
next-page token (classes reported as store records; the per-class protobuf
conversion is one-to-one and does not change the count). -/
inductive ListClassesOutcome
  | failure (code : GrpcCode)
  | listed (classes : List ClassRec) (nextPageToken : String)
deriving DecidableEq

/-- The collaborators `ListClasses` calls
(`server/router/api/v1/class_service.go`, lines 169-260), abstracted as an
environment: the filter validator `s.validateFilter` (defined outside the
available sources — only its success/failure matters here), the current-user
fetch, the store query, the per-class permission check `canViewClass`, and
the page-token encoder `getPageToken`; each may fail as in the source. -/
structure ListClassesEnv where
  validate : String → Bool
  fetchUser : Except Unit (Option Int)
  store : FindClass → Except Unit (List ClassRec)
  canView : Option Int → ClassRec → Except Unit Bool
  mkToken : Int → Int → Except Unit String

/-- A `ListClassesRequest`: the filter string, the page size, and the page
token — `none` for the empty token string, `some (Except.error ())` for a
token `unmarshalPageToken` rejects, `some (Except.ok (limit, offset))` for a
token decoding to those values. -/
structure ListClassesRequest where
  filter : String := ""
  pageSize : Int := 0
  pageToken : Option (Except Unit (Int × Int)) := none

/-- The in-memory permission filtering loop of `ListClasses`
(`server/router/api/v1/class_service.go`, lines 225-235): keep the classes
the user can view, in order, failing when a permission check fails. -/
def filterCanView (cv : Option Int → ClassRec → Except Unit Bool) (u : Option Int) :
    List ClassRec → Except Unit (List ClassRec)
  | [] => Except.ok []
  | c :: rest =>
    match cv u c with
    | Except.error e => Except.error e
    | Except.ok b =>
      match filterCanView cv u rest with
      | Except.error e => Except.error e
      | Except.ok tail => Except.ok (if b then c :: tail else tail)

/-- The page-limit normalization of `ListClasses`
(`server/router/api/v1/class_service.go`, lines 192-197): replace a
non-positive limit by the default page size, then cap at the maximum. -/
def normalizeLimit (dps mps limit0 : Int) : Int :=
  let l1 := if limit0 ≤ 0 then dps else limit0
  if l1 > mps then mps else l1

/-- The pre-normalization limit of a request: the limit of the decoded page token
when a valid token is present, the request page size otherwise. -/
def requestLimit0 (req : ListClassesRequest) : Int :=
  match req.pageToken with
  | some (Except.ok lo) => lo.1
  | _ => req.pageSize

/-- Execution trace of one `ListClasses` call: the outcome, whether the store
query was performed, and (when reached) the permission-filtered list before
truncation. -/
structure ListClassesTrace where
  outcome : ListClassesOutcome
  storeQueried : Bool
  survivors : Option (List ClassRec)

/-- The truncation/token stage of `ListClasses`
(`server/router/api/v1/class_service.go`, lines 237-259): when exactly
limit+1 classes survived permission filtering, truncate to `limit` and emit a
next-page token (an encoder failure is an internal error); otherwise return
the filtered classes with the empty token. -/
def paginateStage (mkTok : Int → Int → Except Unit String) (limit offset : Int)
    (filtered : List ClassRec) : ListClassesTrace :=
  if (filtered.length : Int) = limit + 1 then
    match mkTok limit (offset + limit) with
    | Except.error _ =>
        ⟨ListClassesOutcome.failure GrpcCode.internal, true, some filtered⟩
    | Except.ok tok =>
        ⟨ListClassesOutcome.listed (filtered.take limit.toNat) tok, true, some filtered⟩
  else ⟨ListClassesOutcome.listed filtered (""), true, some filtered⟩

/-- The service-layer `ListClasses`
(`server/router/api/v1/class_service.go`, lines 169-260), with `dps`/`mps`
the `DefaultPageSize`/`MaxPageSize` constants (defined outside the available
sources).  Stage order as in the source: filter validation, pagination
decoding and normalization, current-user fetch, visibility presetting, store
query with limit+1, in-memory permission filtering, truncation and token
generation. -/
def listClassesService (env : ListClassesEnv) (dps mps : Int) (req : ListClassesRequest) :
    ListClassesTrace :=
  let filtersOrErr : Except GrpcCode (List String) :=
    if req.filter = "" then Except.ok []
    else if env.validate req.filter then Except.ok [req.filter]
    else Except.error GrpcCode.invalidArgument
  match filtersOrErr with
  | Except.error c => ⟨ListClassesOutcome.failure c, false, none⟩
  | Except.ok fs =>
    let limOff : Except GrpcCode (Int × Int) :=
      match req.pageToken with
      | some (Except.error _) => Except.error GrpcCode.invalidArgument
      | some (Except.ok lo) => Except.ok lo
      | none => Except.ok (req.pageSize, 0)
    match limOff with
    | Except.error c => ⟨ListClassesOutcome.failure c, false, none⟩
    | Except.ok lo =>
      let offset := lo.2
      let limit := normalizeLimit dps mps lo.1
      let limitPlusOne := limit + 1
      match env.fetchUser with
      | Except.error _ => ⟨ListClassesOutcome.failure GrpcCode.internal, false, none⟩
      | Except.ok currentUser =>
        let vis : Option String :=
          match currentUser with
          | none => some storeClassVisibilityPublic
          | some _ => none
        let classFind : FindClass :=
          { filters := fs, limit := some limitPlusOne, offset := some offset,
            visibility := vis }
        match env.store classFind with
        | Except.error _ => ⟨ListClassesOutcome.failure GrpcCode.internal, true, none⟩
        | Except.ok classes =>
          match filterCanView env.canView currentUser classes with
          | Except.error _ => ⟨ListClassesOutcome.failure GrpcCode.internal, true, none⟩
          | Except.ok filtered => paginateStage env.mkToken limit offset filtered

/-- C5: when a non-empty request filter fails validation, `ListClasses`
returns InvalidArgument, performs no store query, and returns no class list
— the invalid filter is never dropped. -/
theorem claim_C5 (env : ListClassesEnv) (dps mps : Int) (req : ListClassesRequest)
    (hne : req.filter ≠ "") (hval : env.validate req.filter = false) :
    listClassesService env dps mps req
      = ⟨ListClassesOutcome.failure GrpcCode.invalidArgument, false, none⟩ := by
  simp [listClassesService, hne, hval]

/-- A concrete environment whose validator rejects everything. -/
def stubEnv : ListClassesEnv :=
  { validate := fun _ => false, fetchUser := Except.ok none,
    store := fun _ => Except.ok [], canView := fun _ _ => Except.ok true,
    mkToken := fun _ _ => Except.ok ("") }

/-- Witness for C5 at a concrete request with a rejected filter. -/
theorem claim_C5_witness :
    listClassesService stubEnv 10 1000 { filter := "bad" }
      = ⟨ListClassesOutcome.failure GrpcCode.invalidArgument, false, none⟩ :=
  claim_C5 stubEnv 10 1000 { filter := "bad" } (by decide) rfl

theorem filterCanView_length_le (cv : Option Int → ClassRec → Except Unit Bool)
    (u : Option Int) :
    ∀ l out, filterCanView cv u l = Except.ok out → out.length ≤ l.length := by
  intro l
  induction l with
  | nil =>
    intro out h
    cases h
    simp
  | cons c rest ih =>
    intro out h
    unfold filterCanView at h
    cases hc : cv u c with
    | error e => rw [hc] at h; cases h
    | ok b =>
      rw [hc] at h
      dsimp only at h
      cases ht : filterCanView cv u rest with
      | error e => rw [ht] at h; cases h
      | ok tail =>
        rw [ht] at h
        dsimp only at h
        cases h
        have hlen := ih tail ht
        cases b <;> simp <;> omega

theorem normalizeLimit_pos (dps mps l0 : Int) (hd : 0 < dps) (hm : 0 < mps) :
    0 < normalizeLimit dps mps l0 := by
  simp only [normalizeLimit]
  split <;> split <;> omega

theorem paginateStage_spec (mkTok : Int → Int → Except Unit String)
    (limit offset : Int) (filtered classes : List ClassRec) (tok : String)
    (hlim : 0 ≤ limit) (hlen : (filtered.length : Int) ≤ limit + 1)
    (hout : (paginateStage mkTok limit offset filtered).outcome
      = ListClassesOutcome.listed classes tok) :
    (classes.length : Int) ≤ limit
    ∧ (paginateStage mkTok limit offset filtered).survivors = some filtered
    ∧ (tok ≠ "" → (filtered.length : Int) = limit + 1) := by
  unfold paginateStage at hout ⊢
  by_cases heq : (filtered.length : Int) = limit + 1
  · rw [if_pos heq] at hout ⊢
    split at hout
    · simp at hout
    · rename_i t hmk
      dsimp only at hout ⊢
      cases hout
      refine ⟨?_, rfl, fun _ => heq⟩
      rw [List.length_take]
      have h1 : (limit.toNat : Int) = limit := Int.toNat_of_nonneg hlim
      have h2 : min limit.toNat filtered.length ≤ limit.toNat := Nat.min_le_left _ _
      omega
  · rw [if_neg heq] at hout ⊢
    dsimp only at hout ⊢
    cases hout
    exact ⟨by omega, rfl, fun hne => absurd rfl hne⟩

/-- C10: every successful `ListClasses` call returns at most `limit` classes,
where `limit` is the requested page size normalized by the default and
maximum page sizes, and a non-empty next-page token is returned only when
exactly `limit + 1` classes survived permission filtering.  The store-layer
hypothesis reflects the SQL `LIMIT`: a query with limit `n` yields at most
`n` rows. -/
theorem claim_C10 (env : ListClassesEnv) (dps mps : Int) (req : ListClassesRequest)
    (classes : List ClassRec) (tok : String)
    (hdps : 0 < dps) (hmps : 0 < mps)
    (hstore : ∀ f cs n, env.store f = Except.ok cs → f.limit = some n → 0 < n →
      (cs.length : Int) ≤ n)
    (hout : (listClassesService env dps mps req).outcome
      = ListClassesOutcome.listed classes tok) :
    (classes.length : Int) ≤ normalizeLimit dps mps (requestLimit0 req)
    ∧ (tok ≠ "" →
        ∃ survived, (listClassesService env dps mps req).survivors = some survived
          ∧ (survived.length : Int) = normalizeLimit dps mps (requestLimit0 req) + 1) := by
  simp only [listClassesService] at hout ⊢
  split at hout
  · simp at hout
  · rename_i fs hfs
    split at hout
    · simp at hout
    · rename_i lo hlo
      split at hout
      · simp at hout
      · rename_i currentUser hcu
        split at hout
        · simp at hout
        · rename_i classes0 hst
          split at hout
          · simp at hout
          · rename_i filtered hfl
            have hreq : requestLimit0 req = lo.1 := by
              rcases hpt : req.pageToken with _ | pt
              · rw [hpt] at hlo
                dsimp only at hlo
                cases hlo
                simp [requestLimit0, hpt]
              · rcases pt with u | lo2
                · rw [hpt] at hlo
                  dsimp only at hlo
                  cases hlo
                · rw [hpt] at hlo
                  dsimp only at hlo
                  cases hlo
                  simp [requestLimit0, hpt]
            have hl0 : 0 < normalizeLimit dps mps lo.1 :=
              normalizeLimit_pos dps mps lo.1 hdps hmps
            have hlen0 : (classes0.length : Int) ≤ normalizeLimit dps mps lo.1 + 1 :=
              hstore _ classes0 (normalizeLimit dps mps lo.1 + 1) hst rfl (by omega)
            have hfillen : filtered.length ≤ classes0.length :=
              filterCanView_length_le env.canView currentUser classes0 filtered hfl
            obtain ⟨hb1, hb2, hb3⟩ :=
              paginateStage_spec env.mkToken (normalizeLimit dps mps lo.1) lo.2 filtered
                classes tok (by omega) (by omega) hout
            rw [hreq]
            exact ⟨hb1, fun hne => ⟨filtered, hb2, by rw [hb3 hne]⟩⟩

/-- Witness for C10: the stub environment, an empty request, store returning
no rows. -/
theorem claim_C10_witness :
    ((([] : List ClassRec).length : Int) ≤ normalizeLimit 10 1000 (requestLimit0 {}))
    ∧ (("" : String) ≠ "" →
        ∃ survived, (listClassesService stubEnv 10 1000 {}).survivors = some survived
          ∧ (survived.length : Int) = normalizeLimit 10 1000 (requestLimit0 {}) + 1) :=
  claim_C10 stubEnv 10 1000 {} [] "" (by decide) (by decide)
    (by
      intro f cs n h1 h2 h3
      cases h1
      simp
      omega)
    rfl
